import Mathlib

/-!
Shallow embedding of the smarty-agent change-request server (`server.js`,
full-featured variant: bearer-token auth, fixed-window rate limiting,
base64 image attachments, model-assisted branch naming, Bitbucket PR
creation).  Pure string manipulation (slugify, branch naming, parseInt)
is translated function-by-function; the effectful pipeline
(`handleChangeRequest` and the HTTP dispatcher) is embedded as a total
function over an explicit `World` record that fixes the outcome of every
external effect (filesystem, git subprocesses, the coding-agent process,
the forge API), returning the HTTP response together with a trace of the
side-effecting actions that were performed.
-/

namespace SmartyAgent

/-! ### Character classes (JS regex classes, by code point)

`slugify` uses the regexes `[^\w\s-]`, `[\s_-]+` and `^-+|-+$` after
`toLowerCase().trim()`.  We model `\w` as `[A-Za-z0-9_]`, `\s` by the
ASCII whitespace characters, and `toLowerCase` as ASCII lowering, all by
code point. -/

def isJsWs (c : Char) : Bool :=
  c.toNat = 32 || c.toNat = 9 || c.toNat = 10 || c.toNat = 13 ||
  c.toNat = 11 || c.toNat = 12

def isWordChar (c : Char) : Bool :=
  (97 ≤ c.toNat && c.toNat ≤ 122) || (65 ≤ c.toNat && c.toNat ≤ 90) ||
  (48 ≤ c.toNat && c.toNat ≤ 57) || c.toNat = 95

def isDigitChar (c : Char) : Bool :=
  48 ≤ c.toNat && c.toNat ≤ 57

/-- Characters allowed in a finished slug: `[a-z0-9-]`. -/
def isSlugChar (c : Char) : Bool :=
  (97 ≤ c.toNat && c.toNat ≤ 122) || (48 ≤ c.toNat && c.toNat ≤ 57) ||
  c.toNat = 45

/-- ASCII model of JS `String.prototype.toLowerCase` applied per char. -/
def jsLowerChar (c : Char) : Char :=
  if 65 ≤ c.toNat ∧ c.toNat ≤ 90 then Char.ofNat (c.toNat + 32) else c

theorem toNat_ofNat_of_valid (n : Nat) (h : n.isValidChar) :
    (Char.ofNat n).toNat = n := by
  unfold Char.ofNat
  rw [dif_pos h]
  rfl

theorem jsLowerChar_not_upper (c : Char) :
    ¬ (65 ≤ (jsLowerChar c).toNat ∧ (jsLowerChar c).toNat ≤ 90) := by
  unfold jsLowerChar
  split
  · next h =>
    have hv : (c.toNat + 32).isValidChar := Or.inl (by omega)
    rw [toNat_ofNat_of_valid _ hv]
    omega
  · next h => exact h

/-! ### slugify

```js
function slugify(text) {
  return text.toLowerCase().trim()
    .replace(/[^\w\s-]/g, "")
    .replace(/[\s_-]+/g, "-")
    .replace(/^-+|-+$/g, "");
}
```
-/

/-- JS `String.prototype.trim` on a char list. -/
def trimChars (l : List Char) : List Char :=
  ((l.dropWhile isJsWs).reverse.dropWhile isJsWs).reverse

/-- The char class `[\s_-]` collapsed to a single `-` by the second
`replace`. -/
def isSqueezable (c : Char) : Bool :=
  isJsWs c || c.toNat = 95 || c.toNat = 45

/-- `replace(/[\s_-]+/g, "-")`: every maximal run of squeezable
characters becomes one hyphen. -/
def collapseRuns : List Char → List Char
  | [] => []
  | c :: rest =>
    if isSqueezable c then '-' :: collapseRuns (rest.dropWhile isSqueezable)
    else c :: collapseRuns rest
termination_by l => l.length
decreasing_by
  · simp only [List.length_cons]
    have := (List.dropWhile_sublist isSqueezable (l := rest)).length_le
    omega
  · simp

/-- `replace(/^-+|-+$/g, "")`. -/
def trimHyphens (l : List Char) : List Char :=
  ((l.dropWhile (fun c => c.toNat = 45)).reverse.dropWhile
    (fun c => c.toNat = 45)).reverse

def slugifyChars (l : List Char) : List Char :=
  let lowered := l.map jsLowerChar
  let trimmed := trimChars lowered
  let kept := trimmed.filter (fun c => isWordChar c || isJsWs c || c.toNat = 45)
  trimHyphens (collapseRuns kept)

def slugify (s : String) : String := String.mk (slugifyChars s.data)

/-- JS `.substring(0, n)` (by code unit; by char in this model). -/
def jsSubstr (s : String) (n : Nat) : String := String.mk (s.data.take n)

/-- JS `.trim()` on a `String`. -/
def jsTrim (s : String) : String := String.mk (trimChars s.data)

/-- JS `String.prototype.startsWith`. -/
def strStartsWith (s pre : String) : Bool := pre.data.isPrefixOf s.data

/-- JS `.slice(n)` (from index `n` to the end). -/
def jsSlice (s : String) (n : Nat) : String := String.mk (s.data.drop n)

/-! Every character of a slug is in `[a-z0-9-]`. -/

theorem mem_collapseRuns {c : Char} : ∀ {l : List Char},
    c ∈ collapseRuns l → c.toNat = 45 ∨ (c ∈ l ∧ isSqueezable c = false) := by
  intro l
  induction l using collapseRuns.induct with
  | case1 => intro h; simp [collapseRuns] at h
  | case2 d rest hsq ih =>
    intro h
    rw [collapseRuns, if_pos hsq] at h
    rcases List.mem_cons.mp h with h | h
    · left; rw [h]; rfl
    · rcases ih h with h45 | ⟨hmem, hns⟩
      · exact Or.inl h45
      · exact Or.inr ⟨List.mem_cons_of_mem _ (List.dropWhile_subset _ hmem), hns⟩
  | case3 d rest hsq ih =>
    intro h
    rw [collapseRuns, if_neg hsq] at h
    rcases List.mem_cons.mp h with h | h
    · subst h
      exact Or.inr ⟨List.mem_cons_self _ _, by revert hsq; cases isSqueezable c <;> simp⟩
    · rcases ih h with h45 | ⟨hmem, hns⟩
      · exact Or.inl h45
      · exact Or.inr ⟨List.mem_cons_of_mem _ hmem, hns⟩

theorem mem_trimHyphens {c : Char} {l : List Char} (h : c ∈ trimHyphens l) :
    c ∈ l := by
  unfold trimHyphens at h
  rw [List.mem_reverse] at h
  have h1 := List.dropWhile_subset _ h
  rw [List.mem_reverse] at h1
  exact List.dropWhile_subset _ h1

theorem mem_trimChars {c : Char} {l : List Char} (h : c ∈ trimChars l) :
    c ∈ l := by
  unfold trimChars at h
  rw [List.mem_reverse] at h
  have h1 := List.dropWhile_subset _ h
  rw [List.mem_reverse] at h1
  exact List.dropWhile_subset _ h1

theorem slugifyChars_chars {c : Char} {l : List Char}
    (h : c ∈ slugifyChars l) : isSlugChar c = true := by
  unfold slugifyChars at h
  have h1 := mem_trimHyphens h
  rcases mem_collapseRuns h1 with h45 | ⟨hmem, hns⟩
  · simp [isSlugChar, h45]
  · obtain ⟨hmem1, hcls⟩ := List.mem_filter.mp hmem
    have hmem2 := mem_trimChars hmem1
    rcases List.mem_map.mp hmem2 with ⟨c0, _, hc0⟩
    have hup := jsLowerChar_not_upper c0
    rw [hc0] at hup
    simp [isSqueezable, isJsWs] at hns
    simp [isWordChar, isJsWs] at hcls
    simp [isSlugChar]
    omega

theorem slugify_chars {c : Char} {s : String}
    (h : c ∈ (slugify s).data) : isSlugChar c = true :=
  slugifyChars_chars h

/-! ### Decimal rendering (`Nat.repr`)

The pipeline interpolates `Date.now()` into the branch name; Lean's
`Nat.repr` models JS number-to-string for (safe, non-negative) integer
timestamps.  We prove it produces a non-empty all-digit string and is
injective, via the fuel-free recursion `decDigits`. -/

def decDigits (n : Nat) : List Char :=
  if n / 10 = 0 then [Nat.digitChar (n % 10)]
  else decDigits (n / 10) ++ [Nat.digitChar (n % 10)]
termination_by n
decreasing_by
  have : n ≠ 0 := by
    intro h
    subst h
    simp_all
  exact Nat.div_lt_self (Nat.pos_of_ne_zero this) (by omega)

theorem digitChar_toNat {m : Nat} (h : m < 10) :
    (Nat.digitChar m).toNat = 48 + m := by
  interval_cases m <;> rfl

theorem decDigits_digits {n : Nat} {c : Char} (h : c ∈ decDigits n) :
    isDigitChar c = true := by
  induction n using decDigits.induct with
  | case1 n h0 =>
    rw [decDigits, if_pos h0] at h
    rcases List.mem_singleton.mp h with rfl
    have := digitChar_toNat (Nat.mod_lt n (by omega))
    simp [isDigitChar, this]
    omega
  | case2 n h0 ih =>
    rw [decDigits, if_neg h0] at h
    rcases List.mem_append.mp h with h | h
    · exact ih h
    · rcases List.mem_singleton.mp h with rfl
      have := digitChar_toNat (Nat.mod_lt n (by omega))
      simp [isDigitChar, this]
      omega

theorem decDigits_ne_nil (n : Nat) : decDigits n ≠ [] := by
  rw [decDigits]
  split <;> simp

/-- Value of a digit string, most significant first. -/
def decValChars (l : List Char) : Nat :=
  l.foldl (fun a c => a * 10 + (c.toNat - 48)) 0

theorem decValChars_append_digit (l : List Char) (c : Char) :
    decValChars (l ++ [c]) = 10 * decValChars l + (c.toNat - 48) := by
  unfold decValChars
  rw [List.foldl_append]
  simp [Nat.mul_comm]

theorem decValChars_decDigits (n : Nat) : decValChars (decDigits n) = n := by
  induction n using decDigits.induct with
  | case1 n h0 =>
    rw [decDigits, if_pos h0]
    have hlt : n % 10 < 10 := Nat.mod_lt n (by omega)
    have := digitChar_toNat hlt
    simp [decValChars, this]
    omega
  | case2 n h0 ih =>
    rw [decDigits, if_neg h0]
    rw [decValChars_append_digit, ih]
    have hlt : n % 10 < 10 := Nat.mod_lt n (by omega)
    rw [digitChar_toNat hlt]
    omega

theorem toDigitsCore_succ (b f n : Nat) (ds : List Char) :
    Nat.toDigitsCore b (f + 1) n ds =
      if n / b = 0 then Nat.digitChar (n % b) :: ds
      else Nat.toDigitsCore b f (n / b) (Nat.digitChar (n % b) :: ds) := rfl

theorem toDigitsCore_eq_decDigits :
    ∀ (f n : Nat) (ds : List Char), n < 10 ^ f →
      Nat.toDigitsCore 10 (f + 1) n ds = decDigits n ++ ds := by
  intro f
  induction f with
  | zero =>
    intro n ds h
    have : n = 0 := by omega
    subst this
    simp [Nat.toDigitsCore, decDigits]
  | succ f ih =>
    intro n ds h
    rw [decDigits]
    by_cases h0 : n / 10 = 0
    · rw [if_pos h0, toDigitsCore_succ, if_pos h0]
      rfl
    · rw [if_neg h0]
      have hlt : n / 10 < 10 ^ f := by
        rw [Nat.div_lt_iff_lt_mul (by omega)]
        calc n < 10 ^ (f + 1) := h
        _ = 10 ^ f * 10 := by rw [Nat.pow_succ]
      have hrec := ih (n / 10) (Nat.digitChar (n % 10) :: ds) hlt
      rw [toDigitsCore_succ, if_neg h0, hrec]
      simp

theorem repr_data (n : Nat) : (Nat.repr n).data = decDigits n := by
  have hlt : n < 10 ^ n := by
    calc n < 2 ^ n := Nat.lt_two_pow n
    _ ≤ 10 ^ n := Nat.pow_le_pow_left (by omega) n
  have hlt2 : n < 10 ^ (n + 1 - 1) := by simpa using hlt
  unfold Nat.repr Nat.toDigits
  have := toDigitsCore_eq_decDigits n n [] hlt
  rw [this]
  simp [List.asString]

theorem repr_data_digits {n : Nat} {c : Char}
    (h : c ∈ (Nat.repr n).data) : isDigitChar c = true := by
  rw [repr_data] at h
  exact decDigits_digits h

theorem repr_data_ne_nil (n : Nat) : (Nat.repr n).data ≠ [] := by
  rw [repr_data]
  exact decDigits_ne_nil n

theorem repr_data_injective {m n : Nat}
    (h : (Nat.repr m).data = (Nat.repr n).data) : m = n := by
  rw [repr_data, repr_data] at h
  have := decValChars_decDigits m
  rw [h, decValChars_decDigits] at this
  omega

/-! ### Subprocess outcomes

Both `claude` invocations are `spawn`ed processes observed through the
`close` event (an integer exit code, with buffered stdout/stderr) or the
`error` event (a spawn failure). -/

inductive ProcOutcome where
  | exited (code : Int) (stdout : String) (stderr : String)
  | spawnError (msg : String)
deriving Repr, DecidableEq

/-- ```js
proc.on("close", (code) => {
  if (code === 0) resolve(stdout);
  else reject(new Error(`Claude Code exited with code ${code}: ${stderr}`));
});
proc.on("error", (err) => reject(err));
``` -/
def agentExitMsg (code : Int) (stderr : String) : String :=
  "Claude Code exited with code " ++ toString code ++ ": " ++ stderr

def runClaudeCode (outcome : ProcOutcome) : Except String String :=
  match outcome with
  | .exited code out err =>
      if code = 0 then .ok out else .error (agentExitMsg code err)
  | .spawnError msg => .error msg

/-- `generateBranchName`: ask the auxiliary `haiku` model for a name; on
zero exit slugify its trimmed stdout capped at 40 chars, falling back
(empty result, non-zero exit, or spawn error) to
`slugify(request).substring(0, 30)`.  The promise executor only ever
calls `resolve`, so the result is a plain `String`. -/
def generateBranchName (request : String) (model : ProcOutcome) : String :=
  match model with
  | .exited code out _ =>
      if code = 0 then
        if jsSubstr (slugify (jsTrim out)) 40 = "" then
          jsSubstr (slugify request) 30
        else jsSubstr (slugify (jsTrim out)) 40
      else jsSubstr (slugify request) 30
  | .spawnError _ => jsSubstr (slugify request) 30

/-- `` `claude/${slug}-${Date.now()}` ``. -/
def mkBranchName (slug : String) (now : Nat) : String :=
  "claude/" ++ slug ++ "-" ++ Nat.repr now

/-! ### `parseInt(s, 10)`

Used on the trimmed output of `git rev-list --count`: skip leading
whitespace, take an optional sign, then the longest digit run; `none`
models `NaN`. -/

def digitsToNat (l : List Char) : Nat :=
  l.foldl (fun a c => a * 10 + (c.toNat - 48)) 0

def jsParseInt (s : String) : Option Int :=
  let l := s.data.dropWhile isJsWs
  let signed : Int × List Char :=
    match l with
    | '-' :: rest => (-1, rest)
    | '+' :: rest => (1, rest)
    | _ => (1, l)
  let ds := signed.2.takeWhile isDigitChar
  if ds = [] then none else some (signed.1 * (digitsToNat ds : Int))

/-! ### Branch-name pattern `claude/[a-z0-9-]{0,50}-\d+` -/

/-- Decides whether `s` matches `claude/[a-z0-9-]{0,50}-\d+`: after the
`claude/` prefix, reading from the end there must be a non-empty digit
run, then a hyphen, then at most 50 slug characters. -/
def branchPatternOk (s : String) : Bool :=
  "claude/".data.isPrefixOf s.data &&
    (!((s.data.drop "claude/".data.length).reverse.takeWhile
        isDigitChar).isEmpty &&
      (match (s.data.drop "claude/".data.length).reverse.dropWhile
          isDigitChar with
       | c :: srev => c.toNat = 45 && srev.length ≤ 50 && srev.all isSlugChar
       | [] => false))

theorem takeWhile_append_all {α : Type} (p : α → Bool) (l₁ l₂ : List α)
    (a : α) (h : ∀ x ∈ l₁, p x = true) (ha : p a = false) :
    (l₁ ++ a :: l₂).takeWhile p = l₁ := by
  induction l₁ with
  | nil => simp [List.takeWhile_cons, ha]
  | cons x xs ih =>
    have hx : p x = true := h x (List.mem_cons_self _ _)
    simp only [List.cons_append, List.takeWhile_cons, hx, if_true]
    rw [ih (fun y hy => h y (List.mem_cons_of_mem _ hy))]

theorem dropWhile_append_all {α : Type} (p : α → Bool) (l₁ l₂ : List α)
    (a : α) (h : ∀ x ∈ l₁, p x = true) (ha : p a = false) :
    (l₁ ++ a :: l₂).dropWhile p = a :: l₂ := by
  induction l₁ with
  | nil => simp [List.dropWhile_cons, ha]
  | cons x xs ih =>
    have hx : p x = true := h x (List.mem_cons_self _ _)
    simp only [List.cons_append, List.dropWhile_cons, hx, if_true]
    exact ih (fun y hy => h y (List.mem_cons_of_mem _ hy))

theorem hyphen_not_digit : isDigitChar '-' = false := by decide

/-- The maximal digit run at the end of `prefixPart ++ "-" ++ digits`
is exactly `digits` — the last hyphen unambiguously separates the
timestamp. -/
theorem mkBranchName_data (slug : String) (now : Nat) :
    (mkBranchName slug now).data =
      ("claude/".data ++ slug.data ++ ['-']) ++ (Nat.repr now).data := by
  unfold mkBranchName
  simp [String.data_append]

theorem mkBranchName_inj_now {slug₁ slug₂ : String} {t₁ t₂ : Nat}
    (h : mkBranchName slug₁ t₁ = mkBranchName slug₂ t₂) : t₁ = t₂ := by
  have hd : (mkBranchName slug₁ t₁).data = (mkBranchName slug₂ t₂).data := by
    rw [h]
  rw [mkBranchName_data, mkBranchName_data] at hd
  have key : ∀ (s : List Char) (t : Nat),
      (((s ++ ['-']) ++ (Nat.repr t).data).reverse.takeWhile isDigitChar)
        = (Nat.repr t).data.reverse := by
    intro s t
    rw [List.reverse_append, List.reverse_append]
    simp only [List.reverse_cons, List.reverse_nil, List.nil_append,
      List.append_assoc, List.singleton_append]
    exact takeWhile_append_all isDigitChar (Nat.repr t).data.reverse _ '-'
      (fun x hx => repr_data_digits (List.mem_reverse.mp hx))
      hyphen_not_digit
  have h1 := key ("claude/".data ++ slug₁.data) t₁
  have h2 := key ("claude/".data ++ slug₂.data) t₂
  simp only [List.append_assoc] at h1 h2 hd
  rw [hd] at h1
  rw [h1] at h2
  exact repr_data_injective (List.reverse_injective h2)

theorem jsSubstr_data (s : String) (n : Nat) :
    (jsSubstr s n).data = s.data.take n := rfl

theorem generateBranchName_chars {request : String} {model : ProcOutcome}
    {c : Char} (h : c ∈ (generateBranchName request model).data) :
    isSlugChar c = true := by
  unfold generateBranchName at h
  have fb : c ∈ (jsSubstr (slugify request) 30).data → isSlugChar c = true := by
    intro hm
    rw [jsSubstr_data] at hm
    exact slugify_chars (List.take_subset _ _ hm)
  split at h
  · next code out _ =>
    split at h
    · split at h
      · exact fb h
      · rw [jsSubstr_data] at h
        exact slugify_chars (List.take_subset _ _ h)
    · exact fb h
  · exact fb h

theorem generateBranchName_length (request : String) (model : ProcOutcome) :
    (generateBranchName request model).data.length ≤ 40 := by
  unfold generateBranchName
  have fb : (jsSubstr (slugify request) 30).data.length ≤ 40 := by
    rw [jsSubstr_data, List.length_take]
    omega
  split
  · next code out _ =>
    split
    · split
      · exact fb
      · rw [jsSubstr_data, List.length_take]
        omega
    · exact fb
  · exact fb

theorem branchPatternOk_mk (slug : String) (t : Nat)
    (hchars : ∀ c ∈ slug.data, isSlugChar c = true)
    (hlen : slug.data.length ≤ 50) :
    branchPatternOk (mkBranchName slug t) = true := by
  have hdata := mkBranchName_data slug t
  unfold branchPatternOk
  rw [hdata]
  have hpre : "claude/".data.isPrefixOf
      (("claude/".data ++ slug.data ++ ['-']) ++ (Nat.repr t).data) = true := by
    rw [List.isPrefixOf_iff_prefix]
    simp only [List.append_assoc]
    exact ⟨_, rfl⟩
  rw [hpre]
  simp only [Bool.true_and]
  have hdrop : ((("claude/".data ++ slug.data ++ ['-']) ++ (Nat.repr t).data).drop
      "claude/".data.length) = (slug.data ++ ['-']) ++ (Nat.repr t).data := by
    simp only [List.append_assoc]
    rw [List.drop_left]
  rw [hdrop]
  have hrev : (((slug.data ++ ['-']) ++ (Nat.repr t).data).reverse)
      = (Nat.repr t).data.reverse ++ '-' :: slug.data.reverse := by
    rw [List.reverse_append, List.reverse_append]
    simp
  rw [hrev]
  have hdigits : ∀ x ∈ (Nat.repr t).data.reverse, isDigitChar x = true :=
    fun x hx => repr_data_digits (List.mem_reverse.mp hx)
  rw [takeWhile_append_all isDigitChar _ _ '-' hdigits hyphen_not_digit]
  rw [dropWhile_append_all isDigitChar _ _ '-' hdigits hyphen_not_digit]
  have hne : (Nat.repr t).data.reverse.isEmpty = false := by
    rw [List.isEmpty_eq_false_iff_exists_mem]
    have := repr_data_ne_nil t
    cases hc : (Nat.repr t).data with
    | nil => exact absurd hc this
    | cons a as => exact ⟨a, by simp [hc]⟩
  rw [hne]
  simp only [Bool.not_false, Bool.true_and]
  have h45 : ('-').toNat = 45 := rfl
  rw [h45]
  simp only [decide_True, Bool.true_and, List.length_reverse]
  rw [Bool.and_eq_true, List.all_eq_true]
  refine ⟨by simpa using hlen, ?_⟩
  intro x hx
  exact hchars x (List.mem_reverse.mp hx)

/-! ### Rate limiter

```js
const rateLimitMap = new Map();
const RATE_LIMIT_WINDOW_MS = 24 * 60 * 60 * 1000;
const RATE_LIMIT_MAX_REQUESTS = 5;
function checkRateLimit(ip) {
  const now = Date.now();
  const record = rateLimitMap.get(ip);
  if (!record || now - record.windowStart > RATE_LIMIT_WINDOW_MS) {
    rateLimitMap.set(ip, { windowStart: now, count: 1 });
    return true;
  }
  if (record.count >= RATE_LIMIT_MAX_REQUESTS) return false;
  record.count++;
  return true;
}
```

Timestamps are `Date.now()` values, modelled as `Nat`.  The JS test
`now - record.windowStart > RATE_LIMIT_WINDOW_MS` (signed arithmetic)
and the `Nat`-truncated version used here agree: when
`now < windowStart` both sides of the comparison make the test false. -/

structure RateRecord where
  windowStart : Nat
  count : Nat
deriving Repr, DecidableEq

def RATE_LIMIT_WINDOW_MS : Nat := 24 * 60 * 60 * 1000

def RATE_LIMIT_MAX_REQUESTS : Nat := 5

def RateMap : Type := String → Option RateRecord

def emptyRateMap : RateMap := fun _ => none

def RateMap.set (m : RateMap) (ip : String) (r : RateRecord) : RateMap :=
  fun k => if k = ip then some r else m k

def checkRateLimit (now : Nat) (ip : String) (m : RateMap) :
    Bool × RateMap :=
  match m ip with
  | none => (true, m.set ip ⟨now, 1⟩)
  | some record =>
    if RATE_LIMIT_WINDOW_MS < now - record.windowStart then
      (true, m.set ip ⟨now, 1⟩)
    else if RATE_LIMIT_MAX_REQUESTS ≤ record.count then
      (false, m)
    else
      (true, m.set ip ⟨record.windowStart, record.count + 1⟩)

/-- The rate-limit table after a sequence of checks `(now, ip)`,
starting from the empty table. -/
def rlRun (qs : List (Nat × String)) : RateMap :=
  qs.foldl (fun m q => (checkRateLimit q.1 q.2 m).2) emptyRateMap

/-! ### Request gate -/

structure HttpRequest where
  method : String
  pathname : String
  authHeader : Option String
  forwardedFor : Option String
  remoteAddr : String
deriving Repr, DecidableEq

/-- ```js
const authHeader = req.headers.authorization;
if (!authHeader || !authHeader.startsWith("Bearer ")) return false;
return authHeader.slice(7) === API_KEY;
``` -/
def isAuthenticated (apiKey : String) (rq : HttpRequest) : Bool :=
  match rq.authHeader with
  | none => false
  | some h =>
      if strStartsWith h "Bearer " then decide (jsSlice h 7 = apiKey)
      else false

/-- `req.headers["x-forwarded-for"]?.split(",")[0]?.trim() ||
req.socket.remoteAddress`. -/
def clientIp (rq : HttpRequest) : String :=
  match rq.forwardedFor with
  | none => rq.remoteAddr
  | some s =>
      if jsTrim (String.mk ((s.data.splitOnP
          (fun c => decide (c.toNat = 44))).headD [])) = "" then
        rq.remoteAddr
      else
        jsTrim (String.mk ((s.data.splitOnP
          (fun c => decide (c.toNat = 44))).headD []))

/-! ### Attachments -/

structure ImageSpec where
  name : Option String
  data : String
deriving Repr, DecidableEq

/-- ```js
const ext = img.name ? path.extname(img.name) : ".png";
const filename = img.name || `image-${index}${ext}`;
```
When `img.name` is falsy (absent or empty) the extension is `".png"`
and the fallback name is used; otherwise the filename is `img.name`. -/
def imageFilename (idx : Nat) (nameField : Option String) : String :=
  match nameField with
  | some n =>
      if n = "" then "image-" ++ Nat.repr idx ++ ".png" else n
  | none => "image-" ++ Nat.repr idx ++ ".png"

/-- The paths `saveImages` returns (`path.join(tempDir, filename)`),
rendered as plain concatenations; the normalising behaviour of
`path.join` itself is modelled at segment level below for the
write-containment analysis. -/
def imagePathsOf (repoPath : String) (imgs : List ImageSpec) :
    List String :=
  imgs.mapIdx (fun i img =>
    repoPath ++ "/.claude-temp-images/" ++ imageFilename i img.name)

/-! #### Segment-level model of `path.join` for saved attachment paths

`path.join(a, b)` concatenates and normalises: empty and `.` segments
vanish and `..` pops the previous segment.  An absolute directory is a
list of segments (each a char list); joining a client-controlled
filename processes its `/`-separated segments in order. -/

def normStep (acc : List (List Char)) (seg : List Char) :
    List (List Char) :=
  if seg = ['.', '.'] then acc.dropLast else acc ++ [seg]

def pathJoinSegs (dir : List (List Char)) (name : List Char) :
    List (List Char) :=
  ((name.splitOnP (fun c => decide (c.toNat = 47))).filter
    (fun s => !s.isEmpty && decide (s ≠ ['.']))).foldl normStep dir

def tempDirSegs (repo : List (List Char)) : List (List Char) :=
  repo ++ [".claude-temp-images".data]

/-- Where the file for image `idx` with client-supplied name field
`nameField` is written: the temp directory joined with the unsanitised
filename. -/
def savedPathSegs (repo : List (List Char)) (idx : Nat)
    (nameField : Option String) : List (List Char) :=
  pathJoinSegs (tempDirSegs repo) (imageFilename idx nameField).data

/-- `p` is strictly inside directory `d`. -/
def strictlyInside (d p : List (List Char)) : Bool :=
  d.isPrefixOf p && decide (d ≠ p)

/-! ### The change-request pipeline

`handleChangeRequest` is embedded as a total function over a `World`
fixing every external outcome.  The result is the HTTP response
together with the trace of side-effecting steps that were executed. -/

inductive Action where
  | saveAttempt
  | gitFetch
  | gitCheckoutMaster
  | gitReset
  | gitCheckoutBranch (name : String)
  | runAgent
  | gitRevList (branch : String)
  | gitPush (branch : String)
  | createPR (branch : String)
  | cleanup
deriving Repr, DecidableEq

structure HttpResponse where
  status : Nat
  error : Option String := none
  pr : Option String := none
  branch : Option String := none
deriving Repr, DecidableEq

def stillCloningMsg : String :=
  "Repository is still cloning. Please try again in a moment."

def invalidRequestMsg : String := "Missing or invalid \"request\" field"

def noChangesMsg : String := "No changes were committed by Claude Code"

def safetyMsg (b : String) : String :=
  "Safety check failed: current branch \"" ++ b ++
    "\" is not a claude/* branch"

def rateLimitedMsg : String := "Too many requests. Please try again later."

def unauthorizedMsg : String := "Unauthorized"

def notFoundMsg : String := "Not found"

/-- The request body after `JSON.parse`: the `request` field may be
missing, non-string, or a string (the empty string is falsy and is
rejected together with the former two); `images` is present iff the
body carried an array. -/
inductive ReqField where
  | missing
  | notAString
  | str (s : String)
deriving Repr, DecidableEq

structure ParsedBody where
  request : ReqField
  images : Option (List ImageSpec)
deriving Repr, DecidableEq

/-- `if (!request || typeof request !== "string")` → 400. -/
def requestOk : ReqField → Option String
  | .str s => if s = "" then none else some s
  | _ => none

/-- Outcome of every external effect consulted while handling one
request.  `saveResult = .error e` models a file write inside
`saveImages` throwing after `mkdirSync` created the temp directory. -/
structure World where
  repoReady : Bool
  parsedBody : Option ParsedBody
  parseErrMsg : String
  saveResult : Except String Unit
  fetchRes : Except String Unit
  checkoutMasterRes : Except String Unit
  resetRes : Except String Unit
  namerOutcome : ProcOutcome
  now : Nat
  checkoutBranchRes : Except String Unit
  agentOutcome : ProcOutcome
  branchRes : Except String String
  revListRes : Except String String
  pushRes : Except String Unit
  prRes : Except String String

def gitPrepActs (branchName : String) : List Action :=
  [Action.gitFetch, Action.gitCheckoutMaster, Action.gitReset,
   Action.gitCheckoutBranch branchName]

/-- The pipeline from `git fetch origin` onward (everything after the
attachment-saving step), given the already-saved image paths and the
actions performed so far. -/
def afterImages (w : World) (request : String) (imagePaths : List String)
    (acts0 : List Action) :
    Except String HttpResponse × List Action × List String :=
  match w.fetchRes with
  | .error e => (.error e, acts0 ++ [Action.gitFetch], imagePaths)
  | .ok _ =>
  match w.checkoutMasterRes with
  | .error e =>
      (.error e, acts0 ++ [Action.gitFetch, Action.gitCheckoutMaster],
       imagePaths)
  | .ok _ =>
  match w.resetRes with
  | .error e =>
      (.error e,
       acts0 ++ [Action.gitFetch, Action.gitCheckoutMaster, Action.gitReset],
       imagePaths)
  | .ok _ =>
  match w.checkoutBranchRes with
  | .error e =>
      (.error e,
       acts0 ++ gitPrepActs
         (mkBranchName (generateBranchName request w.namerOutcome) w.now),
       imagePaths)
  | .ok _ =>
  match runClaudeCode w.agentOutcome with
  | .error e =>
      (.error e,
       acts0 ++ gitPrepActs
         (mkBranchName (generateBranchName request w.namerOutcome) w.now) ++
         [Action.runAgent],
       imagePaths)
  | .ok _ =>
  match w.branchRes with
  | .error e =>
      (.error e,
       acts0 ++ gitPrepActs
         (mkBranchName (generateBranchName request w.namerOutcome) w.now) ++
         [Action.runAgent],
       imagePaths)
  | .ok currentBranch =>
    if strStartsWith currentBranch "claude/" then
      match w.revListRes with
      | .error e =>
          (.error e,
           acts0 ++ gitPrepActs
             (mkBranchName (generateBranchName request w.namerOutcome) w.now) ++
             [Action.runAgent, Action.gitRevList currentBranch],
           imagePaths)
      | .ok commitCount =>
        if jsParseInt commitCount = some 0 then
          (.ok { status := 400, error := some noChangesMsg },
           acts0 ++ gitPrepActs
             (mkBranchName (generateBranchName request w.namerOutcome) w.now) ++
             [Action.runAgent, Action.gitRevList currentBranch],
           imagePaths)
        else
          match w.pushRes with
          | .error e =>
              (.error e,
               acts0 ++ gitPrepActs
                 (mkBranchName (generateBranchName request w.namerOutcome)
                   w.now) ++
                 [Action.runAgent, Action.gitRevList currentBranch,
                  Action.gitPush currentBranch],
               imagePaths)
          | .ok _ =>
          match w.prRes with
          | .error e =>
              (.error e,
               acts0 ++ gitPrepActs
                 (mkBranchName (generateBranchName request w.namerOutcome)
                   w.now) ++
                 [Action.runAgent, Action.gitRevList currentBranch,
                  Action.gitPush currentBranch,
                  Action.createPR currentBranch],
               imagePaths)
          | .ok prUrl =>
              (.ok { status := 200, pr := some prUrl,
                     branch := some currentBranch },
               acts0 ++ gitPrepActs
                 (mkBranchName (generateBranchName request w.namerOutcome)
                   w.now) ++
                 [Action.runAgent, Action.gitRevList currentBranch,
                  Action.gitPush currentBranch,
                  Action.createPR currentBranch],
               imagePaths)
    else
      (.error (safetyMsg currentBranch),
       acts0 ++ gitPrepActs
         (mkBranchName (generateBranchName request w.namerOutcome) w.now) ++
         [Action.runAgent],
       imagePaths)

/-- The `try` block of the `req.on("end")` handler, up to where
exceptions are caught: returns the response or the thrown error, the
action trace, and the value of the `imagePaths` variable (which stays
`[]` when `saveImages` throws before returning). -/
def tryBody (repoPath : String) (w : World) :
    Except String HttpResponse × List Action × List String :=
  if w.repoReady = false then
    (.ok { status := 503, error := some stillCloningMsg }, [], [])
  else
    match w.parsedBody with
    | none => (.error w.parseErrMsg, [], [])
    | some body =>
      match requestOk body.request with
      | none => (.ok { status := 400, error := some invalidRequestMsg }, [], [])
      | some request =>
        match body.images with
        | some imgs =>
          if imgs.isEmpty then afterImages w request [] []
          else
            match w.saveResult with
            | .error e => (.error e, [Action.saveAttempt], [])
            | .ok _ =>
                afterImages w request (imagePathsOf repoPath imgs)
                  [Action.saveAttempt]
        | none => afterImages w request [] []

/-- The full request handler: `catch` turns a thrown error into a 500
response with the error message, and `finally` cleans the temp-image
directory up exactly when `imagePaths.length > 0`. -/
def handleChangeRequest (repoPath : String) (w : World) :
    HttpResponse × List Action :=
  match tryBody repoPath w with
  | (.ok resp, acts, imagePaths) =>
      if imagePaths.length > 0 then (resp, acts ++ [Action.cleanup])
      else (resp, acts)
  | (.error msg, acts, imagePaths) =>
      if imagePaths.length > 0 then
        ({ status := 500, error := some msg }, acts ++ [Action.cleanup])
      else ({ status := 500, error := some msg }, acts)

/-- Whether the temp-image directory exists when the request finishes:
it is created by the (attempted) `saveImages` call and removed by
`cleanupImages`. -/
def dirPresentAfter (acts : List Action) : Bool :=
  decide (Action.saveAttempt ∈ acts) && !(decide (Action.cleanup ∈ acts))

/-- The `http.createServer` dispatcher. -/
def serverHandle (repoPath apiKey : String) (rq : HttpRequest) (now : Nat)
    (m : RateMap) (w : World) : HttpResponse × RateMap × List Action :=
  if rq.method = "OPTIONS" then ({ status := 204 }, m, [])
  else if rq.method = "GET" ∧ rq.pathname = "/health" then
    ({ status := 200 }, m, [])
  else if isAuthenticated apiKey rq = false then
    ({ status := 401, error := some unauthorizedMsg }, m, [])
  else if (checkRateLimit now (clientIp rq) m).1 = false then
    ({ status := 429, error := some rateLimitedMsg },
     (checkRateLimit now (clientIp rq) m).2, [])
  else if rq.method = "POST" ∧ rq.pathname = "/" then
    ((handleChangeRequest repoPath w).1,
     (checkRateLimit now (clientIp rq) m).2,
     (handleChangeRequest repoPath w).2)
  else
    ({ status := 404, error := some notFoundMsg },
     (checkRateLimit now (clientIp rq) m).2, [])

/-- Whether the trace contains a `git push`. -/
def pushed (acts : List Action) : Bool :=
  acts.any (fun a => match a with | .gitPush _ => true | _ => false)

/-- Whether the trace contains a forge pull-request creation call. -/
def prCreated (acts : List Action) : Bool :=
  acts.any (fun a => match a with | .createPR _ => true | _ => false)

/-! ### Reduction lemmas for the pipeline -/

theorem tryBody_noImages (repoPath : String) (w : World) (body : ParsedBody)
    (request : String) (hready : w.repoReady = true)
    (hbody : w.parsedBody = some body)
    (hreq : requestOk body.request = some request)
    (himgs : body.images = none) :
    tryBody repoPath w = afterImages w request [] [] := by
  simp [tryBody, hready, hbody, hreq, himgs]

theorem tryBody_emptyImages (repoPath : String) (w : World)
    (body : ParsedBody) (request : String) (imgs : List ImageSpec)
    (hready : w.repoReady = true) (hbody : w.parsedBody = some body)
    (hreq : requestOk body.request = some request)
    (himgs : body.images = some imgs) (hemp : imgs.isEmpty = true) :
    tryBody repoPath w = afterImages w request [] [] := by
  simp [tryBody, hready, hbody, hreq, himgs, hemp]

theorem tryBody_withImages (repoPath : String) (w : World)
    (body : ParsedBody) (request : String) (imgs : List ImageSpec)
    (hready : w.repoReady = true) (hbody : w.parsedBody = some body)
    (hreq : requestOk body.request = some request)
    (himgs : body.images = some imgs) (hemp : imgs.isEmpty = false)
    (hsave : w.saveResult = .ok ()) :
    tryBody repoPath w =
      afterImages w request (imagePathsOf repoPath imgs)
        [Action.saveAttempt] := by
  simp [tryBody, hready, hbody, hreq, himgs, hemp, hsave]

theorem afterImages_safety (w : World) (request : String)
    (ips : List String) (acts0 : List Action) (out err b : String)
    (hfetch : w.fetchRes = .ok ()) (hcm : w.checkoutMasterRes = .ok ())
    (hreset : w.resetRes = .ok ()) (hcb : w.checkoutBranchRes = .ok ())
    (hagent : w.agentOutcome = .exited 0 out err)
    (hbranch : w.branchRes = .ok b)
    (hb : strStartsWith b "claude/" = false) :
    afterImages w request ips acts0 =
      (.error (safetyMsg b),
       acts0 ++ gitPrepActs
         (mkBranchName (generateBranchName request w.namerOutcome) w.now) ++
         [Action.runAgent],
       ips) := by
  unfold afterImages
  rw [hfetch, hcm, hreset, hcb, hagent, hbranch]
  simp [runClaudeCode, hb]

theorem afterImages_zeroCommits (w : World) (request : String)
    (ips : List String) (acts0 : List Action) (out err b cc : String)
    (hfetch : w.fetchRes = .ok ()) (hcm : w.checkoutMasterRes = .ok ())
    (hreset : w.resetRes = .ok ()) (hcb : w.checkoutBranchRes = .ok ())
    (hagent : w.agentOutcome = .exited 0 out err)
    (hbranch : w.branchRes = .ok b)
    (hb : strStartsWith b "claude/" = true)
    (hrev : w.revListRes = .ok cc)
    (hzero : jsParseInt cc = some 0) :
    afterImages w request ips acts0 =
      (.ok { status := 400, error := some noChangesMsg },
       acts0 ++ gitPrepActs
         (mkBranchName (generateBranchName request w.namerOutcome) w.now) ++
         [Action.runAgent, Action.gitRevList b],
       ips) := by
  unfold afterImages
  rw [hfetch, hcm, hreset, hcb, hagent, hbranch]
  simp [runClaudeCode, hb, hrev, hzero]

theorem afterImages_agentFailed (w : World) (request : String)
    (ips : List String) (acts0 : List Action) (e : String)
    (hfetch : w.fetchRes = .ok ()) (hcm : w.checkoutMasterRes = .ok ())
    (hreset : w.resetRes = .ok ()) (hcb : w.checkoutBranchRes = .ok ())
    (hagent : runClaudeCode w.agentOutcome = .error e) :
    afterImages w request ips acts0 =
      (.error e,
       acts0 ++ gitPrepActs
         (mkBranchName (generateBranchName request w.namerOutcome) w.now) ++
         [Action.runAgent],
       ips) := by
  unfold afterImages
  rw [hfetch, hcm, hreset, hcb, hagent]

/-- C1 — After a zero-exit agent run, a current branch that does not
start with `claude/` makes the pipeline throw the fatal safety-check
error: the request is answered 500 with that message and the trace
contains neither a push nor a pull-request creation, whatever the
commit count (`w.revListRes` is unconstrained). -/
theorem c1_safety_check_blocks_publishing (repoPath : String) (w : World)
    (body : ParsedBody) (request out err b : String)
    (hready : w.repoReady = true)
    (hbody : w.parsedBody = some body)
    (hreq : requestOk body.request = some request)
    (hsave : ∀ imgs, body.images = some imgs → imgs.isEmpty = false →
      w.saveResult = .ok ())
    (hfetch : w.fetchRes = .ok ()) (hcm : w.checkoutMasterRes = .ok ())
    (hreset : w.resetRes = .ok ()) (hcb : w.checkoutBranchRes = .ok ())
    (hagent : w.agentOutcome = .exited 0 out err)
    (hbranch : w.branchRes = .ok b)
    (hb : strStartsWith b "claude/" = false) :
    (handleChangeRequest repoPath w).1.status = 500 ∧
    (handleChangeRequest repoPath w).1.error = some (safetyMsg b) ∧
    pushed (handleChangeRequest repoPath w).2 = false ∧
    prCreated (handleChangeRequest repoPath w).2 = false := by
  have hafter := afterImages_safety w request
  cases himgs : body.images with
  | none =>
    have ht := tryBody_noImages repoPath w body request hready hbody hreq himgs
    rw [hafter [] [] out err b hfetch hcm hreset hcb hagent hbranch hb] at ht
    unfold handleChangeRequest
    rw [ht]
    simp [gitPrepActs, pushed, prCreated]
  | some imgs =>
    cases hemp : imgs.isEmpty with
    | true =>
      have ht := tryBody_emptyImages repoPath w body request imgs hready
        hbody hreq himgs hemp
      rw [hafter [] [] out err b hfetch hcm hreset hcb hagent hbranch hb] at ht
      unfold handleChangeRequest
      rw [ht]
      simp [gitPrepActs, pushed, prCreated]
    | false =>
      have ht := tryBody_withImages repoPath w body request imgs hready
        hbody hreq himgs hemp (hsave imgs himgs hemp)
      rw [hafter (imagePathsOf repoPath imgs) [Action.saveAttempt] out err b
        hfetch hcm hreset hcb hagent hbranch hb] at ht
      unfold handleChangeRequest
      rw [ht]
      have hlen : 0 < (imagePathsOf repoPath imgs).length := by
        unfold imagePathsOf
        rw [List.length_mapIdx]
        cases imgs with
        | nil => simp at hemp
        | cons a l => simp
      simp [gitPrepActs, hlen, pushed, prCreated]

def c1World : World where
  repoReady := true
  parsedBody := some { request := .str "add a health icon", images := none }
  parseErrMsg := ""
  saveResult := .ok ()
  fetchRes := .ok ()
  checkoutMasterRes := .ok ()
  resetRes := .ok ()
  namerOutcome := .spawnError "spawn claude ENOENT"
  now := 1700000000000
  checkoutBranchRes := .ok ()
  agentOutcome := .exited 0 "made changes" ""
  branchRes := .ok "master"
  revListRes := .ok "3"
  pushRes := .ok ()
  prRes := .ok "https://bitbucket.org/w/r/pull-requests/1"

/-- Witness for C1: a run where the agent exited 0 but left the working
copy on `master` (with `git rev-list --count` reporting 3 commits). -/
theorem c1_witness :
    (handleChangeRequest "/workspace/repo" c1World).1.status = 500 ∧
    (handleChangeRequest "/workspace/repo" c1World).1.error =
      some (safetyMsg "master") ∧
    pushed (handleChangeRequest "/workspace/repo" c1World).2 = false ∧
    prCreated (handleChangeRequest "/workspace/repo" c1World).2 = false :=
  c1_safety_check_blocks_publishing "/workspace/repo" c1World
    { request := .str "add a health icon", images := none }
    "add a health icon" "made changes" "" "master"
    rfl rfl (by decide) (fun _ h _ => nomatch h)
    rfl rfl rfl rfl rfl rfl (by decide)

/-- C2 — After the branch-prefix check passes, a commit count parsing
to zero yields the non-fatal 400 "no changes" response, with no push
and no pull-request creation. -/
theorem c2_zero_commits_reported_400 (repoPath : String) (w : World)
    (body : ParsedBody) (request out err b cc : String)
    (hready : w.repoReady = true)
    (hbody : w.parsedBody = some body)
    (hreq : requestOk body.request = some request)
    (hsave : ∀ imgs, body.images = some imgs → imgs.isEmpty = false →
      w.saveResult = .ok ())
    (hfetch : w.fetchRes = .ok ()) (hcm : w.checkoutMasterRes = .ok ())
    (hreset : w.resetRes = .ok ()) (hcb : w.checkoutBranchRes = .ok ())
    (hagent : w.agentOutcome = .exited 0 out err)
    (hbranch : w.branchRes = .ok b)
    (hb : strStartsWith b "claude/" = true)
    (hrev : w.revListRes = .ok cc)
    (hzero : jsParseInt cc = some 0) :
    (handleChangeRequest repoPath w).1.status = 400 ∧
    (handleChangeRequest repoPath w).1.error = some noChangesMsg ∧
    pushed (handleChangeRequest repoPath w).2 = false ∧
    prCreated (handleChangeRequest repoPath w).2 = false := by
  have hafter := afterImages_zeroCommits w request
  cases himgs : body.images with
  | none =>
    have ht := tryBody_noImages repoPath w body request hready hbody hreq himgs
    rw [hafter [] [] out err b cc hfetch hcm hreset hcb hagent hbranch hb
      hrev hzero] at ht
    unfold handleChangeRequest
    rw [ht]
    simp [gitPrepActs, pushed, prCreated]
  | some imgs =>
    cases hemp : imgs.isEmpty with
    | true =>
      have ht := tryBody_emptyImages repoPath w body request imgs hready
        hbody hreq himgs hemp
      rw [hafter [] [] out err b cc hfetch hcm hreset hcb hagent hbranch hb
        hrev hzero] at ht
      unfold handleChangeRequest
      rw [ht]
      simp [gitPrepActs, pushed, prCreated]
    | false =>
      have ht := tryBody_withImages repoPath w body request imgs hready
        hbody hreq himgs hemp (hsave imgs himgs hemp)
      rw [hafter (imagePathsOf repoPath imgs) [Action.saveAttempt] out err b
        cc hfetch hcm hreset hcb hagent hbranch hb hrev hzero] at ht
      unfold handleChangeRequest
      rw [ht]
      have hlen : 0 < (imagePathsOf repoPath imgs).length := by
        unfold imagePathsOf
        rw [List.length_mapIdx]
        cases imgs with
        | nil => simp at hemp
        | cons a l => simp
      simp [gitPrepActs, hlen, pushed, prCreated]

def c2World : World where
  repoReady := true
  parsedBody := some { request := .str "noop", images := none }
  parseErrMsg := ""
  saveResult := .ok ()
  fetchRes := .ok ()
  checkoutMasterRes := .ok ()
  resetRes := .ok ()
  namerOutcome := .exited 0 "noop-change\n" ""
  now := 1700000000001
  checkoutBranchRes := .ok ()
  agentOutcome := .exited 0 "nothing to do" ""
  branchRes := .ok "claude/noop-change-1700000000001"
  revListRes := .ok "0"
  pushRes := .ok ()
  prRes := .ok "https://bitbucket.org/w/r/pull-requests/2"

/-- Witness for C2: a run on the pipeline's own branch where
`git rev-list --count master..HEAD` printed `0`. -/
theorem c2_witness :
    (handleChangeRequest "/workspace/repo" c2World).1.status = 400 ∧
    (handleChangeRequest "/workspace/repo" c2World).1.error =
      some noChangesMsg ∧
    pushed (handleChangeRequest "/workspace/repo" c2World).2 = false ∧
    prCreated (handleChangeRequest "/workspace/repo" c2World).2 = false :=
  c2_zero_commits_reported_400 "/workspace/repo" c2World
    { request := .str "noop", images := none }
    "noop" "nothing to do" "" "claude/noop-change-1700000000001" "0"
    rfl rfl (by decide) (fun _ h _ => nomatch h)
    rfl rfl rfl rfl rfl rfl (by decide) rfl (by decide)

/-- An agent invocation that failed: non-zero exit or spawn error. -/
def agentFailed : ProcOutcome → Bool
  | .exited code _ _ => decide (code ≠ 0)
  | .spawnError _ => true

/-- The error carried by a failed agent invocation: the buffered stderr
wrapped in the exit message, or the spawn error itself. -/
def procErrMsg : ProcOutcome → String
  | .exited code _ err => agentExitMsg code err
  | .spawnError msg => msg

theorem runClaudeCode_of_failed {o : ProcOutcome}
    (h : agentFailed o = true) : runClaudeCode o = .error (procErrMsg o) := by
  cases o with
  | exited code out err =>
    simp only [agentFailed, decide_eq_true_eq] at h
    simp [runClaudeCode, procErrMsg, h]
  | spawnError msg => rfl

/-- C3 — A non-zero agent exit or a spawn failure means the trace
contains neither a push nor a forge call, and the request is answered
500 with the failure's message (which, for a non-zero exit, embeds the
buffered stderr stream). -/
theorem c3_agent_failure_blocks_publishing (repoPath : String) (w : World)
    (body : ParsedBody) (request : String)
    (hready : w.repoReady = true)
    (hbody : w.parsedBody = some body)
    (hreq : requestOk body.request = some request)
    (hsave : ∀ imgs, body.images = some imgs → imgs.isEmpty = false →
      w.saveResult = .ok ())
    (hfetch : w.fetchRes = .ok ()) (hcm : w.checkoutMasterRes = .ok ())
    (hreset : w.resetRes = .ok ()) (hcb : w.checkoutBranchRes = .ok ())
    (hagent : agentFailed w.agentOutcome = true) :
    (handleChangeRequest repoPath w).1.status = 500 ∧
    (handleChangeRequest repoPath w).1.error =
      some (procErrMsg w.agentOutcome) ∧
    pushed (handleChangeRequest repoPath w).2 = false ∧
    prCreated (handleChangeRequest repoPath w).2 = false := by
  have hrun := runClaudeCode_of_failed hagent
  have hafter := afterImages_agentFailed w request
  cases himgs : body.images with
  | none =>
    have ht := tryBody_noImages repoPath w body request hready hbody hreq himgs
    rw [hafter [] [] (procErrMsg w.agentOutcome) hfetch hcm hreset hcb
      hrun] at ht
    unfold handleChangeRequest
    rw [ht]
    simp [gitPrepActs, pushed, prCreated]
  | some imgs =>
    cases hemp : imgs.isEmpty with
    | true =>
      have ht := tryBody_emptyImages repoPath w body request imgs hready
        hbody hreq himgs hemp
      rw [hafter [] [] (procErrMsg w.agentOutcome) hfetch hcm hreset hcb
        hrun] at ht
      unfold handleChangeRequest
      rw [ht]
      simp [gitPrepActs, pushed, prCreated]
    | false =>
      have ht := tryBody_withImages repoPath w body request imgs hready
        hbody hreq himgs hemp (hsave imgs himgs hemp)
      rw [hafter (imagePathsOf repoPath imgs) [Action.saveAttempt]
        (procErrMsg w.agentOutcome) hfetch hcm hreset hcb hrun] at ht
      unfold handleChangeRequest
      rw [ht]
      have hlen : 0 < (imagePathsOf repoPath imgs).length := by
        unfold imagePathsOf
        rw [List.length_mapIdx]
        cases imgs with
        | nil => simp at hemp
        | cons a l => simp
      simp [gitPrepActs, hlen, pushed, prCreated]

def c3World : World where
  repoReady := true
  parsedBody := some { request := .str "update pricing page", images := none }
  parseErrMsg := ""
  saveResult := .ok ()
  fetchRes := .ok ()
  checkoutMasterRes := .ok ()
  resetRes := .ok ()
  namerOutcome := .spawnError "spawn claude ENOENT"
  now := 1700000000002
  checkoutBranchRes := .ok ()
  agentOutcome := .exited 1 "" "Error: API rate limit reached"
  branchRes := .ok "claude/update-pricing-page-1700000000002"
  revListRes := .ok "1"
  pushRes := .ok ()
  prRes := .ok "https://bitbucket.org/w/r/pull-requests/3"

/-- Witness for C3: the agent exited with code 1; the 500 response
carries the buffered stderr inside the exit message. -/
theorem c3_witness :
    (handleChangeRequest "/workspace/repo" c3World).1.status = 500 ∧
    (handleChangeRequest "/workspace/repo" c3World).1.error =
      some (procErrMsg (ProcOutcome.exited 1 "" "Error: API rate limit reached")) ∧
    pushed (handleChangeRequest "/workspace/repo" c3World).2 = false ∧
    prCreated (handleChangeRequest "/workspace/repo" c3World).2 = false :=
  c3_agent_failure_blocks_publishing "/workspace/repo" c3World
    { request := .str "update pricing page", images := none }
    "update pricing page"
    rfl rfl (by decide) (fun _ h _ => nomatch h)
    rfl rfl rfl rfl (by decide)

theorem afterImages_ips (w : World) (request : String) (ips : List String)
    (acts0 : List Action) : (afterImages w request ips acts0).2.2 = ips := by
  unfold afterImages
  repeat' split
  all_goals rfl

theorem afterImages_save_mem (w : World) (request : String)
    (ips : List String) (acts0 : List Action)
    (h : Action.saveAttempt ∈ (afterImages w request ips acts0).2.1) :
    Action.saveAttempt ∈ acts0 := by
  unfold afterImages at h
  repeat' split at h
  all_goals simp_all [gitPrepActs]

theorem tryBody_save_nonempty (repoPath : String) (w : World)
    (hsave : w.saveResult = .ok ())
    (hmem : Action.saveAttempt ∈ (tryBody repoPath w).2.1) :
    (tryBody repoPath w).2.2 ≠ [] := by
  revert hmem
  unfold tryBody
  split
  · intro hmem; simp at hmem
  · split
    · intro hmem; simp at hmem
    · split
      · intro hmem; simp at hmem
      · split
        · next imgs himgs =>
          split
          · intro hmem
            exact absurd (afterImages_save_mem _ _ _ _ hmem) (by simp)
          · next hemp =>
            split
            · next e hse => rw [hsave] at hse; cases hse
            · intro hmem
              rw [afterImages_ips]
              have hne : imgs ≠ [] := by
                intro hnil
                rw [hnil] at hemp
                simp at hemp
              unfold imagePathsOf
              intro hc
              apply hne
              have hlen := congrArg List.length hc
              rw [List.length_mapIdx] at hlen
              exact List.length_eq_zero.mp hlen
        · intro hmem
          exact absurd (afterImages_save_mem _ _ _ _ hmem) (by simp)

/-- C4 (amended) — Whenever the attachment-saving step does not itself
throw (in particular on every request without attachments, and on every
outcome — success, reported 4xx failure, or fatal 5xx error — of a
request whose attachments were all saved), the temp-image directory is
absent when the request completes. -/
theorem c4_cleanup_when_save_succeeds (repoPath : String) (w : World)
    (hsave : w.saveResult = .ok ()) :
    dirPresentAfter (handleChangeRequest repoPath w).2 = false := by
  have hsn := tryBody_save_nonempty repoPath w hsave
  unfold handleChangeRequest
  rcases htb : tryBody repoPath w with ⟨r, acts, ips⟩
  rw [htb] at hsn
  simp only at hsn
  have main : ∀ resp : HttpResponse,
      dirPresentAfter ((if 0 < ips.length then (resp, acts ++ [Action.cleanup])
        else (resp, acts)).2) = false := by
    intro resp
    split
    · simp [dirPresentAfter]
    · next hlen =>
      have hips : ips = [] := by
        cases ips with
        | nil => rfl
        | cons a l => exact absurd (by simp) hlen
      have hnm : Action.saveAttempt ∉ acts := fun hm => (hsn hm) hips
      simp [dirPresentAfter, hnm]
  cases r with
  | ok resp => exact main resp
  | error msg => exact main _

def c4World : World where
  repoReady := true
  parsedBody := some { request := ReqField.str "match the mockup",
                       images := some [{ name := some "mockup.png",
                                         data := "aGVsbG8=" }] }
  parseErrMsg := ""
  saveResult := .ok ()
  fetchRes := .ok ()
  checkoutMasterRes := .ok ()
  resetRes := .ok ()
  namerOutcome := .spawnError "spawn claude ENOENT"
  now := 1700000000003
  checkoutBranchRes := .ok ()
  agentOutcome := .exited 1 "" "network error"
  branchRes := .ok "claude/match-the-mockup-1700000000003"
  revListRes := .ok "0"
  pushRes := .ok ()
  prRes := .ok "https://bitbucket.org/w/r/pull-requests/4"

/-- Witness for the amended C4: an attachment-bearing request whose
attachments saved fine and whose agent then failed still ends with the
temp directory removed. -/
theorem c4_witness :
    dirPresentAfter (handleChangeRequest "/workspace/repo" c4World).2
      = false :=
  c4_cleanup_when_save_succeeds "/workspace/repo" c4World rfl

def c4FailWorld : World where
  repoReady := true
  parsedBody := some { request := ReqField.str "match the mockup",
                       images := some [{ name := some "mockup.png",
                                         data := "aGVsbG8=" },
                                       { name := some "detail.png",
                                         data := "d29ybGQ=" }] }
  parseErrMsg := ""
  saveResult := .error "ENOSPC: no space left on device, write"
  fetchRes := .ok ()
  checkoutMasterRes := .ok ()
  resetRes := .ok ()
  namerOutcome := .spawnError "spawn claude ENOENT"
  now := 1700000000004
  checkoutBranchRes := .ok ()
  agentOutcome := .exited 0 "done" ""
  branchRes := .ok "claude/match-the-mockup-1700000000004"
  revListRes := .ok "1"
  pushRes := .ok ()
  prRes := .ok "https://bitbucket.org/w/r/pull-requests/5"

/-- Counterexample to C4 as stated: when a write inside `saveImages`
throws after the directory was created (here: disk full on the second
file), `imagePaths` is still `[]` in the `finally` block, so
`cleanupImages()` is skipped and the directory survives the request —
which is answered 500. -/
theorem c4_counterexample :
    dirPresentAfter (handleChangeRequest "/workspace/repo" c4FailWorld).2
        = true ∧
      (handleChangeRequest "/workspace/repo" c4FailWorld).1 =
        { status := 500,
          error := some "ENOSPC: no space left on device, write" } := by
  constructor
  · rfl
  · rfl

/-! ### C8: the assisted namer degrades silently -/

/-- C8 — `generateBranchName` is a total `String`-valued function (the
promise executor only ever resolves), and on a non-zero exit of the
auxiliary model, a spawn error, or output whose trimmed form is empty,
it returns the deterministic slug of the same request truncated to its
30-character fallback bound. -/
theorem c8_namer_never_fails (request : String) (model : ProcOutcome) :
    (∀ code out err, model = .exited code out err → code ≠ 0 →
      generateBranchName request model = jsSubstr (slugify request) 30) ∧
    (∀ msg, model = .spawnError msg →
      generateBranchName request model = jsSubstr (slugify request) 30) ∧
    (∀ out err, model = .exited 0 out err → jsTrim out = "" →
      generateBranchName request model = jsSubstr (slugify request) 30) := by
  refine ⟨?_, ?_, ?_⟩
  · intro code out err hm hc
    subst hm
    simp [generateBranchName, hc]
  · intro msg hm
    subst hm
    rfl
  · intro out err hm htr
    subst hm
    have hnil : slugifyChars ([] : List Char) = [] := by
      simp [slugifyChars, trimChars, collapseRuns, trimHyphens]
    have h0 : jsSubstr (slugify "") 40 = "" := by
      show String.mk ((slugifyChars "".data).take 40) = ""
      have hd : "".data = [] := rfl
      rw [hd, hnil]
      rfl
    simp [generateBranchName, htr, h0]

/-- Witness for C8: the model exited 1, so the namer falls back to the
deterministic slug. -/
theorem c8_witness :
    generateBranchName "Fix the Login Bug!" (.exited 1 "" "boom") =
      jsSubstr (slugify "Fix the Login Bug!") 30 :=
  (c8_namer_never_fails "Fix the Login Bug!" (.exited 1 "" "boom")).1
    1 "" "boom" rfl (by decide)

/-! ### C5: branch-name shape and uniqueness -/

/-- C5 — For every request text, model outcome and timestamp, the
derived branch name matches `claude/[a-z0-9-]{0,50}-\d+`: the slug part
is at most 40 characters (so within both the 50-char deterministic and
40-char assisted bounds) over `[a-z0-9-]`, the name ends in a hyphen
followed by the decimal timestamp, and derivations at distinct
timestamps always differ. -/
theorem c5_branch_name_pattern (request : String) (model : ProcOutcome)
    (t : Nat) :
    branchPatternOk (mkBranchName (generateBranchName request model) t)
        = true ∧
    (generateBranchName request model).data.length ≤ 40 ∧
    (mkBranchName (generateBranchName request model) t).data =
      "claude/".data ++ (generateBranchName request model).data ++
        '-' :: (Nat.repr t).data ∧
    (∀ request₂ model₂ t₂, t ≠ t₂ →
      mkBranchName (generateBranchName request model) t ≠
        mkBranchName (generateBranchName request₂ model₂) t₂) := by
  refine ⟨?_, generateBranchName_length request model, ?_, ?_⟩
  · exact branchPatternOk_mk _ t (fun c h => generateBranchName_chars h)
      (le_trans (generateBranchName_length request model) (by omega))
  · rw [mkBranchName_data]
    simp
  · intro request₂ model₂ t₂ ht h
    exact ht (mkBranchName_inj_now h)

/-- Witness for C5: a concrete derivation matches the pattern and two
derivations at timestamps 1712 and 1713 differ. -/
theorem c5_witness :
    branchPatternOk
      (mkBranchName
        (generateBranchName "Fix the login bug" (.spawnError "e")) 1712)
        = true ∧
    mkBranchName (generateBranchName "Fix the login bug" (.spawnError "e"))
        1712 ≠
      mkBranchName
        (generateBranchName "Add avatar" (.exited 0 "add-user-avatar" ""))
        1713 := by
  obtain ⟨h1, _, _, h4⟩ :=
    c5_branch_name_pattern "Fix the login bug" (.spawnError "e") 1712
  exact ⟨h1, h4 "Add avatar" (.exited 0 "add-user-avatar" "") 1713
    (by decide)⟩

/-! ### C6/C7: rate limiter -/

theorem crl_none {m : RateMap} {now : Nat} {ip : String}
    (hm : m ip = none) :
    checkRateLimit now ip m = (true, m.set ip ⟨now, 1⟩) := by
  simp [checkRateLimit, hm]

theorem crl_fresh {m : RateMap} {now : Nat} {ip : String} {r : RateRecord}
    (hm : m ip = some r)
    (hw : RATE_LIMIT_WINDOW_MS < now - r.windowStart) :
    checkRateLimit now ip m = (true, m.set ip ⟨now, 1⟩) := by
  simp [checkRateLimit, hm, hw]

theorem crl_deny {m : RateMap} {now : Nat} {ip : String} {r : RateRecord}
    (hm : m ip = some r)
    (hw : now - r.windowStart ≤ RATE_LIMIT_WINDOW_MS)
    (hc : RATE_LIMIT_MAX_REQUESTS ≤ r.count) :
    checkRateLimit now ip m = (false, m) := by
  simp [checkRateLimit, hm, Nat.not_lt.mpr hw, hc]

theorem crl_inc {m : RateMap} {now : Nat} {ip : String} {r : RateRecord}
    (hm : m ip = some r)
    (hw : now - r.windowStart ≤ RATE_LIMIT_WINDOW_MS)
    (hc : r.count < RATE_LIMIT_MAX_REQUESTS) :
    checkRateLimit now ip m =
      (true, m.set ip ⟨r.windowStart, r.count + 1⟩) := by
  simp [checkRateLimit, hm, Nat.not_lt.mpr hw, Nat.not_le.mpr hc]

/-- C6 — The per-check case law of the fixed-window limiter (no record
or stale window ⇒ fresh window with count 1, allowed; current window at
the cap ⇒ denied with the table untouched, and the server answers 429;
otherwise increment and allow), together with the max=5 scenario: six
same-identity requests inside one window are allowed five times and
denied the sixth; a seventh request after the window elapses is allowed
and resets the count to 1. -/
theorem c6_rate_limit_behavior :
    (∀ (now : Nat) (ip : String) (m : RateMap), m ip = none →
      checkRateLimit now ip m = (true, m.set ip ⟨now, 1⟩)) ∧
    (∀ (now : Nat) (ip : String) (m : RateMap) (r : RateRecord),
      m ip = some r → RATE_LIMIT_WINDOW_MS < now - r.windowStart →
      checkRateLimit now ip m = (true, m.set ip ⟨now, 1⟩)) ∧
    (∀ (now : Nat) (ip : String) (m : RateMap) (r : RateRecord),
      m ip = some r → now - r.windowStart ≤ RATE_LIMIT_WINDOW_MS →
      RATE_LIMIT_MAX_REQUESTS ≤ r.count →
      checkRateLimit now ip m = (false, m)) ∧
    (∀ (now : Nat) (ip : String) (m : RateMap) (r : RateRecord),
      m ip = some r → now - r.windowStart ≤ RATE_LIMIT_WINDOW_MS →
      r.count < RATE_LIMIT_MAX_REQUESTS →
      checkRateLimit now ip m =
        (true, m.set ip ⟨r.windowStart, r.count + 1⟩)) ∧
    (∀ (repoPath apiKey : String) (rq : HttpRequest) (now : Nat)
        (m : RateMap) (w : World),
      rq.method ≠ "OPTIONS" →
      ¬(rq.method = "GET" ∧ rq.pathname = "/health") →
      isAuthenticated apiKey rq = true →
      (checkRateLimit now (clientIp rq) m).1 = false →
      (serverHandle repoPath apiKey rq now m w).1.status = 429) ∧
    (∀ (ip : String) (t₁ t₂ t₃ t₄ t₅ t₆ t₇ : Nat),
      t₂ - t₁ ≤ RATE_LIMIT_WINDOW_MS → t₃ - t₁ ≤ RATE_LIMIT_WINDOW_MS →
      t₄ - t₁ ≤ RATE_LIMIT_WINDOW_MS → t₅ - t₁ ≤ RATE_LIMIT_WINDOW_MS →
      t₆ - t₁ ≤ RATE_LIMIT_WINDOW_MS → RATE_LIMIT_WINDOW_MS < t₇ - t₁ →
      (checkRateLimit t₁ ip emptyRateMap).1 = true ∧
      (checkRateLimit t₂ ip (rlRun [(t₁, ip)])).1 = true ∧
      (checkRateLimit t₃ ip (rlRun [(t₁, ip), (t₂, ip)])).1 = true ∧
      (checkRateLimit t₄ ip (rlRun [(t₁, ip), (t₂, ip), (t₃, ip)])).1
          = true ∧
      (checkRateLimit t₅ ip
        (rlRun [(t₁, ip), (t₂, ip), (t₃, ip), (t₄, ip)])).1 = true ∧
      (checkRateLimit t₆ ip
        (rlRun [(t₁, ip), (t₂, ip), (t₃, ip), (t₄, ip), (t₅, ip)])).1
          = false ∧
      (checkRateLimit t₇ ip
        (rlRun [(t₁, ip), (t₂, ip), (t₃, ip), (t₄, ip), (t₅, ip),
          (t₆, ip)])).1 = true ∧
      (checkRateLimit t₇ ip
        (rlRun [(t₁, ip), (t₂, ip), (t₃, ip), (t₄, ip), (t₅, ip),
          (t₆, ip)])).2 ip = some ⟨t₇, 1⟩) := by
  refine ⟨fun _ _ _ hm => crl_none hm,
    fun _ _ _ _ hm hw => crl_fresh hm hw,
    fun _ _ _ _ hm hw hc => crl_deny hm hw hc,
    fun _ _ _ _ hm hw hc => crl_inc hm hw hc, ?_, ?_⟩
  · intro repoPath apiKey rq now m w hopt hh hauth hdeny
    unfold serverHandle
    rw [if_neg hopt, if_neg hh]
    simp [hauth, hdeny]
  · intro ip t₁ t₂ t₃ t₄ t₅ t₆ t₇ h2 h3 h4 h5 h6 h7
    have hm1 : rlRun [(t₁, ip)] ip = some ⟨t₁, 1⟩ := by
      show (checkRateLimit t₁ ip emptyRateMap).2 ip = _
      rw [crl_none rfl]
      simp [RateMap.set]
    have hm2 : rlRun [(t₁, ip), (t₂, ip)] ip = some ⟨t₁, 2⟩ := by
      show (checkRateLimit t₂ ip (rlRun [(t₁, ip)])).2 ip = _
      rw [crl_inc hm1 h2 (by simp [RATE_LIMIT_MAX_REQUESTS])]
      simp [RateMap.set]
    have hm3 : rlRun [(t₁, ip), (t₂, ip), (t₃, ip)] ip = some ⟨t₁, 3⟩ := by
      show (checkRateLimit t₃ ip (rlRun [(t₁, ip), (t₂, ip)])).2 ip = _
      rw [crl_inc hm2 h3 (by simp [RATE_LIMIT_MAX_REQUESTS])]
      simp [RateMap.set]
    have hm4 : rlRun [(t₁, ip), (t₂, ip), (t₃, ip), (t₄, ip)] ip
        = some ⟨t₁, 4⟩ := by
      show (checkRateLimit t₄ ip
        (rlRun [(t₁, ip), (t₂, ip), (t₃, ip)])).2 ip = _
      rw [crl_inc hm3 h4 (by simp [RATE_LIMIT_MAX_REQUESTS])]
      simp [RateMap.set]
    have hm5 : rlRun [(t₁, ip), (t₂, ip), (t₃, ip), (t₄, ip), (t₅, ip)] ip
        = some ⟨t₁, 5⟩ := by
      show (checkRateLimit t₅ ip
        (rlRun [(t₁, ip), (t₂, ip), (t₃, ip), (t₄, ip)])).2 ip = _
      rw [crl_inc hm4 h5 (by simp [RATE_LIMIT_MAX_REQUESTS])]
      simp [RateMap.set]
    have hm6 : rlRun [(t₁, ip), (t₂, ip), (t₃, ip), (t₄, ip), (t₅, ip),
        (t₆, ip)] ip = some ⟨t₁, 5⟩ := by
      show (checkRateLimit t₆ ip
        (rlRun [(t₁, ip), (t₂, ip), (t₃, ip), (t₄, ip), (t₅, ip)])).2 ip = _
      rw [crl_deny hm5 h6 (by simp [RATE_LIMIT_MAX_REQUESTS])]
      exact hm5
    refine ⟨by rw [crl_none rfl], by rw [crl_inc hm1 h2 (by simp [RATE_LIMIT_MAX_REQUESTS])],
      by rw [crl_inc hm2 h3 (by simp [RATE_LIMIT_MAX_REQUESTS])],
      by rw [crl_inc hm3 h4 (by simp [RATE_LIMIT_MAX_REQUESTS])],
      by rw [crl_inc hm4 h5 (by simp [RATE_LIMIT_MAX_REQUESTS])],
      by rw [crl_deny hm5 h6 (by simp [RATE_LIMIT_MAX_REQUESTS])],
      by rw [crl_fresh hm6 h7], ?_⟩
    rw [crl_fresh hm6 h7]
    simp [RateMap.set]

/-- Witness for C6: the scenario at `t₁ = 0, …, t₆ = 5` and
`t₇ = RATE_LIMIT_WINDOW_MS + 1`. -/
theorem c6_witness :
    (checkRateLimit 5 "10.0.0.1"
      (rlRun [(0, "10.0.0.1"), (1, "10.0.0.1"), (2, "10.0.0.1"),
        (3, "10.0.0.1"), (4, "10.0.0.1")])).1 = false ∧
    (checkRateLimit (RATE_LIMIT_WINDOW_MS + 1) "10.0.0.1"
      (rlRun [(0, "10.0.0.1"), (1, "10.0.0.1"), (2, "10.0.0.1"),
        (3, "10.0.0.1"), (4, "10.0.0.1"), (5, "10.0.0.1")])).2 "10.0.0.1"
      = some ⟨RATE_LIMIT_WINDOW_MS + 1, 1⟩ := by
  obtain ⟨-, -, -, -, -, hs⟩ := c6_rate_limit_behavior
  obtain ⟨-, -, -, -, -, h6, -, h8⟩ :=
    hs "10.0.0.1" 0 1 2 3 4 5 (RATE_LIMIT_WINDOW_MS + 1)
      (by decide) (by decide) (by decide) (by decide) (by decide)
      (by omega)
  exact ⟨h6, h8⟩

/-- The table never records a count above the cap. -/
def rlInv (m : RateMap) : Prop :=
  ∀ ip r, m ip = some r → r.count ≤ RATE_LIMIT_MAX_REQUESTS

theorem rlInv_step (m : RateMap) (now : Nat) (ip : String)
    (h : rlInv m) : rlInv (checkRateLimit now ip m).2 := by
  intro ip' r' hr'
  rcases hmi : m ip with _ | r
  · rw [crl_none hmi] at hr'
    simp only [RateMap.set] at hr'
    split at hr'
    · cases hr'; simp [RATE_LIMIT_MAX_REQUESTS]
    · exact h ip' r' hr'
  · by_cases hw : RATE_LIMIT_WINDOW_MS < now - r.windowStart
    · rw [crl_fresh hmi hw] at hr'
      simp only [RateMap.set] at hr'
      split at hr'
      · cases hr'; simp [RATE_LIMIT_MAX_REQUESTS]
      · exact h ip' r' hr'
    · by_cases hc : RATE_LIMIT_MAX_REQUESTS ≤ r.count
      · rw [crl_deny hmi (Nat.not_lt.mp hw) hc] at hr'
        exact h ip' r' hr'
      · rw [crl_inc hmi (Nat.not_lt.mp hw) (Nat.not_le.mp hc)] at hr'
        simp only [RateMap.set] at hr'
        split at hr'
        · cases hr'
          have := h ip r hmi
          simp only [Nat.not_le] at hc
          simpa using hc
        · exact h ip' r' hr'

theorem rlInv_foldl (qs : List (Nat × String)) (m : RateMap)
    (h : rlInv m) :
    rlInv (qs.foldl (fun m q => (checkRateLimit q.1 q.2 m).2) m) := by
  induction qs generalizing m with
  | nil => exact h
  | cons q qs ih => exact ih _ (rlInv_step m q.1 q.2 h)

/-- C7 — Starting from the empty table, after any sequence of checks
every recorded identity whose window is current holds a count of at
most `RATE_LIMIT_MAX_REQUESTS`; the bound is preserved by every call
(it in fact holds for stale windows too). -/
theorem c7_count_invariant (qs : List (Nat × String)) (now : Nat)
    (ip : String) (r : RateRecord)
    (hrec : rlRun qs ip = some r)
    (_hcur : now - r.windowStart ≤ RATE_LIMIT_WINDOW_MS) :
    r.count ≤ RATE_LIMIT_MAX_REQUESTS := by
  have hinv : rlInv (rlRun qs) :=
    rlInv_foldl qs emptyRateMap (fun _ _ h => nomatch h)
  exact hinv ip r hrec

/-- Witness for C7 after two same-identity checks. -/
theorem c7_witness :
    (RateRecord.mk 0 2).count ≤ RATE_LIMIT_MAX_REQUESTS :=
  c7_count_invariant [(0, "a"), (5, "a")] 6 "a" ⟨0, 2⟩
    (by decide) (by decide)

/-! ### C9: attachment write containment -/

theorem pathJoinSegs_single (dir : List (List Char)) (f : List Char)
    (hne : f ≠ []) (hs : ∀ c ∈ f, ¬ c.toNat = 47)
    (hdot : f ≠ ['.']) (hddot : f ≠ ['.', '.']) :
    pathJoinSegs dir f = dir ++ [f] := by
  have hsplit : f.splitOnP (fun c => decide (c.toNat = 47)) = [f] :=
    List.splitOnP_eq_single _ _ (fun x hx => by simpa using hs x hx)
  unfold pathJoinSegs
  rw [hsplit]
  have hkeep : (!f.isEmpty && decide (f ≠ ['.'])) = true := by
    simp [hne, hdot]
  have hf : List.filter (fun s => !s.isEmpty && decide (s ≠ ['.'])) [f]
      = [f] := by
    rw [List.filter_cons, hkeep]
    simp
  rw [hf]
  simp [normStep, hddot]

theorem strictlyInside_append (d : List (List Char)) (f : List Char) :
    strictlyInside d (d ++ [f]) = true := by
  unfold strictlyInside
  rw [Bool.and_eq_true]
  constructor
  · rw [List.isPrefixOf_iff_prefix]
    exact ⟨[f], rfl⟩
  · simp

theorem string_data_ne {s t : String} (h : s ≠ t) : s.data ≠ t.data := by
  intro hd
  apply h
  cases s
  cases t
  exact congrArg String.mk hd

/-- C9 (amended) — A saved attachment lands strictly inside the
`.claude-temp-images` directory provided its client-supplied name is
empty/absent (the generated fallback is used) or contains no `/` and is
not `.` or `..`; the unsanitised join makes other names escape. -/
theorem c9_containment_for_sane_names (repo : List (List Char))
    (idx : Nat) (nameField : Option String)
    (hsafe : ∀ n, nameField = some n → n ≠ "" →
      (∀ c ∈ n.data, ¬ c.toNat = 47) ∧ n ≠ "." ∧ n ≠ "..") :
    strictlyInside (tempDirSegs repo) (savedPathSegs repo idx nameField)
      = true := by
  have fallback_ok : ∀ dir : List (List Char),
      pathJoinSegs dir ("image-" ++ Nat.repr idx ++ ".png").data =
        dir ++ [("image-" ++ Nat.repr idx ++ ".png").data] := by
    intro dir
    have hdata : ("image-" ++ Nat.repr idx ++ ".png").data =
        'i' :: 'm' :: 'a' :: 'g' :: 'e' :: '-' ::
          ((Nat.repr idx).data ++ ['.', 'p', 'n', 'g']) := by
      rw [String.data_append, String.data_append]
      rfl
    apply pathJoinSegs_single
    · rw [hdata]; simp
    · intro c hc
      rw [hdata] at hc
      rcases List.mem_cons.mp hc with rfl | hc
      · decide
      rcases List.mem_cons.mp hc with rfl | hc
      · decide
      rcases List.mem_cons.mp hc with rfl | hc
      · decide
      rcases List.mem_cons.mp hc with rfl | hc
      · decide
      rcases List.mem_cons.mp hc with rfl | hc
      · decide
      rcases List.mem_cons.mp hc with rfl | hc
      · decide
      rcases List.mem_append.mp hc with hc | hc
      · have := repr_data_digits hc
        simp [isDigitChar] at this
        omega
      · rcases List.mem_cons.mp hc with rfl | hc
        · decide
        rcases List.mem_cons.mp hc with rfl | hc
        · decide
        rcases List.mem_cons.mp hc with rfl | hc
        · decide
        rcases List.mem_cons.mp hc with rfl | hc
        · decide
        simp at hc
    · rw [hdata]; simp
    · rw [hdata]; simp
  unfold savedPathSegs
  cases nameField with
  | none =>
    rw [imageFilename, fallback_ok]
    exact strictlyInside_append _ _
  | some n =>
    by_cases hn : n = ""
    · subst hn
      rw [imageFilename, if_pos rfl, fallback_ok]
      exact strictlyInside_append _ _
    · obtain ⟨h47, hdot, hddot⟩ := hsafe n rfl hn
      rw [imageFilename, if_neg hn]
      rw [pathJoinSegs_single _ _ (string_data_ne hn) h47
        (string_data_ne hdot) (string_data_ne hddot)]
      exact strictlyInside_append _ _

/-- Counterexample to C9 as stated: the client name
`"../../../etc/passwd"` joined onto `/workspace/repo/.claude-temp-images`
normalises to `/etc/passwd`, outside the attachment directory. -/
theorem c9_counterexample :
    strictlyInside (tempDirSegs ["workspace".data, "repo".data])
      (savedPathSegs ["workspace".data, "repo".data] 0
        (some "../../../etc/passwd")) = false := by
  decide

/-- Witness for the amended C9: a sane client name stays inside the
directory. -/
theorem c9_witness :
    strictlyInside (tempDirSegs ["workspace".data, "repo".data])
      (savedPathSegs ["workspace".data, "repo".data] 0
        (some "mockup.png")) = true :=
  c9_containment_for_sane_names ["workspace".data, "repo".data] 0
    (some "mockup.png")
    (fun n hn _ => by
      cases hn
      exact ⟨by decide, by decide, by decide⟩)

/-! ### C10: rate limiting precedes routing and readiness -/

/-- C10 — Every authenticated request that is neither an `OPTIONS`
preflight nor `GET /health` has the rate-limit table updated exactly as
`checkRateLimit` prescribes, whatever the routing outcome (including
404 and the 503 not-ready response, since the update is independent of
`w` and of the path); when allowed, the update is a fresh window with
count 1 or an increment of the existing record. -/
theorem c10_rate_limit_precedes_routing (repoPath apiKey : String)
    (rq : HttpRequest) (now : Nat) (m : RateMap) (w : World)
    (hopt : rq.method ≠ "OPTIONS")
    (hh : ¬(rq.method = "GET" ∧ rq.pathname = "/health"))
    (hauth : isAuthenticated apiKey rq = true) :
    (serverHandle repoPath apiKey rq now m w).2.1 =
      (checkRateLimit now (clientIp rq) m).2 ∧
    ((checkRateLimit now (clientIp rq) m).1 = true →
      ((checkRateLimit now (clientIp rq) m).2 (clientIp rq) =
          some ⟨now, 1⟩ ∨
        ∃ r₀, m (clientIp rq) = some r₀ ∧
          (checkRateLimit now (clientIp rq) m).2 (clientIp rq) =
            some ⟨r₀.windowStart, r₀.count + 1⟩)) := by
  constructor
  · unfold serverHandle
    rw [if_neg hopt, if_neg hh]
    simp only [hauth]
    split
    · simp_all
    · split
      · rfl
      · split
        · rfl
        · rfl
  · intro hallow
    rcases hmi : m (clientIp rq) with _ | r
    · rw [crl_none hmi]
      left
      simp [RateMap.set]
    · by_cases hw : RATE_LIMIT_WINDOW_MS < now - r.windowStart
      · rw [crl_fresh hmi hw]
        left
        simp [RateMap.set]
      · by_cases hc : RATE_LIMIT_MAX_REQUESTS ≤ r.count
        · rw [crl_deny hmi (Nat.not_lt.mp hw) hc] at hallow
          simp at hallow
        · rw [crl_inc hmi (Nat.not_lt.mp hw) (Nat.not_le.mp hc)]
          right
          exact ⟨r, rfl, by simp [RateMap.set]⟩

def c10Request : HttpRequest where
  method := "POST"
  pathname := "/missing"
  authHeader := some "Bearer sekret"
  forwardedFor := some " 1.2.3.4 , 5.6.7.8"
  remoteAddr := "9.9.9.9"

def c10World : World where
  repoReady := false
  parsedBody := none
  parseErrMsg := ""
  saveResult := .ok ()
  fetchRes := .ok ()
  checkoutMasterRes := .ok ()
  resetRes := .ok ()
  namerOutcome := .spawnError "e"
  now := 0
  checkoutBranchRes := .ok ()
  agentOutcome := .spawnError "e"
  branchRes := .ok "master"
  revListRes := .ok "0"
  pushRes := .ok ()
  prRes := .ok "u"

/-- Witness for C10: an authenticated `POST /missing` (which the router
answers 404) still updates the rate-limit table. -/
theorem c10_witness :
    (serverHandle "/workspace/repo" "sekret" c10Request 100 emptyRateMap
        c10World).2.1 =
      (checkRateLimit 100 (clientIp c10Request) emptyRateMap).2 :=
  (c10_rate_limit_precedes_routing "/workspace/repo" "sekret" c10Request
    100 emptyRateMap c10World (by decide) (by decide) (by decide)).1

end SmartyAgent
